import Mathlib

/-!
Verification of the i18n subsystem of the "cabra-da-tech" demo sites
(v4-global-i18n variant).

The JavaScript modules `locale-detector.js`, `i18n.js`, the font-loader,
the RTL support module and the language switcher are embedded shallowly:

* pure string/table computations (locale normalization, browser-locale
  detection, `\x7b\x7btoken\x7d\x7d` interpolation, key lookup) become Lean
  functions over `String`/`List`;
* the DOM fragments the modules rewrite (icons, tooltips, dropdowns,
  modals, breadcrumb separators, marked i18n elements) become explicit
  record states;
* async operations (translation fetches, font CSS loads) are modelled by
  explicit state passing: the event loop runs each synchronous segment
  atomically, so a load is split into its synchronous prefix (which
  registers the shared pending promise and issues the fetch) and its
  continuation (which settles it); fetch outcomes are supplied by an
  environment function.  Exceptions are modelled with `Except`.

Machine integers do not occur; all JS numbers involved are small non
negative counters or timestamps, modelled as `Nat`.
-/

namespace CabraDaTech

/-- Replace a key in an association list (JS object/Map assignment). -/
def setKey {β : Type} (k : String) (v : β) (l : List (String × β)) : List (String × β) :=
  (k, v) :: l.filter (fun p => p.1 ≠ k)

/-- Remove a key from an association list (JS `Map.delete`). -/
def eraseKey {β : Type} (k : String) (l : List (String × β)) : List (String × β) :=
  l.filter (fun p => p.1 ≠ k)

/-! ## Locale detector (`locale-detector.js`, `LocaleDetector`) -/

/-- `SUPPORTED_LOCALES` from locale-detector.js. -/
def SUPPORTED_LOCALES : List String :=
  ["pt-BR", "en", "es", "ar", "hi", "ja", "ru"]

/-- `DEFAULT_LOCALE` from locale-detector.js. -/
def DEFAULT_LOCALE : String := "pt-BR"

/-- `LOCALE_FALLBACKS` from locale-detector.js (the static fallback table). -/
def LOCALE_FALLBACKS : List (String × String) :=
  [("pt", "pt-BR"), ("pt-PT", "pt-BR"), ("en-US", "en"), ("en-GB", "en"),
   ("es-ES", "es"), ("es-MX", "es"), ("ar-SA", "ar"), ("ar-EG", "ar"),
   ("hi-IN", "hi"), ("ja-JP", "ja"), ("ru-RU", "ru"), ("zh", "en"),
   ("fr", "en"), ("de", "en")]

/-- JS `String.prototype.replace` with a one-character pattern string
replaces only the first occurrence. -/
def replaceFirstChar (old new : Char) : List Char → List Char
  | [] => []
  | c :: cs => if c = old then new :: cs else c :: replaceFirstChar old new cs

/-- Whitespace stripped by `String.prototype.trim` (the kinds that occur in
locale strings). -/
def isJsSpace (c : Char) : Bool :=
  c = ' ' || c = '\t' || c = '\n' || c = '\r'

/-- JS `String.prototype.trim`. -/
def jsTrim (s : String) : String :=
  String.mk (((s.data.dropWhile isJsSpace).reverse.dropWhile isJsSpace).reverse)

/-- JS `String.prototype.toLowerCase` (ASCII range, which covers locale
codes). -/
def jsToLower (s : String) : String :=
  String.mk (s.data.map Char.toLower)

/-- `LocaleDetector.normalizeLocale`: falsy input yields the default,
otherwise trim, lower-case, turn the first underscore into a dash, and
special-case `pt-br`. -/
def normalizeLocale (locale : String) : String :=
  if locale = "" then DEFAULT_LOCALE
  else
    let l := String.mk (replaceFirstChar '_' '-' (jsToLower (jsTrim locale)).data)
    if l = "pt-br" then "pt-BR" else l

/-- `LocaleDetector.detectBrowserLocale` over the browser-language list
(`navigator.language` followed by `navigator.languages`): first supported
normalized entry wins, else the fallback table on the normalized entry,
else the fallback table on its base code, else the default. -/
def detectBrowserLocale : List String → String
  | [] => DEFAULT_LOCALE
  | lang :: rest =>
    let n := normalizeLocale lang
    if n ∈ SUPPORTED_LOCALES then n
    else
      match LOCALE_FALLBACKS.lookup n with
      | some fb => fb
      | none =>
        match LOCALE_FALLBACKS.lookup (String.mk (n.data.takeWhile (fun c => c ≠ '-'))) with
        | some fb => fb
        | none => detectBrowserLocale rest

/-! ## Translation store (`i18n.js`, class `I18n`) -/

/-- A translation bundle: a nested tree of string templates, as in the
per-locale JSON files (leaves are the string templates). -/
inductive Tree where
  | leaf : String → Tree
  | node : List (String × Tree) → Tree

/-- A `\w` character of the interpolation regex `/\x7b\x7b(\w+)\x7d\x7d/g`:
ASCII letters, digits and underscore. -/
def isWordChar (c : Char) : Bool :=
  c.isAlphanum || c = '_'

/-- The global-regex scan of `I18n._interpolate`:
`text.replace(/\x7b\x7b(\w+)\x7d\x7d/g, ...)` walks the text left to right;
at `\x7b\x7b` it greedily reads word characters, requires `\x7d\x7d`, and
replaces the whole match by `params[token]` when that is defined, else
keeps the match verbatim; a failed match restarts one character later.
The scan consumes at least one character per step, so running it with
the input length as fuel computes the whole replacement
(`interpolateAux_fuel_irrel` below shows any sufficient fuel agrees). -/
def interpolateAux (params : List (String × String)) : Nat → List Char → List Char
  | _, [] => []
  | 0, l => l
  | fuel + 1, c :: rest =>
    if c = '\x7b' then
      match rest with
      | [] => ['\x7b']
      | d :: rest' =>
        if d = '\x7b' then
          let tok := rest'.takeWhile isWordChar
          let dropped := rest'.dropWhile isWordChar
          if tok = [] then '\x7b' :: interpolateAux params fuel rest
          else if dropped.take 2 = ['\x7d', '\x7d'] then
            match params.lookup (String.mk tok) with
            | some v => v.data ++ interpolateAux params fuel (dropped.drop 2)
            | none =>
              '\x7b' :: '\x7b' :: (tok ++ '\x7d' :: '\x7d' :: interpolateAux params fuel (dropped.drop 2))
          else '\x7b' :: interpolateAux params fuel rest
        else '\x7b' :: interpolateAux params fuel rest
    else c :: interpolateAux params fuel rest

/-- `I18n._interpolate` (param values modelled as the strings they are
coerced to). -/
def interpolate (params : List (String × String)) (text : String) : String :=
  String.mk (interpolateAux params text.data.length text.data)

/-- `I18n._getNestedValue`: split the key on `.` and walk the bundle with
optional chaining.  (Keys are dot-separated identifiers; JS numeric
indexing into leaf strings is out of the bundle format and not modelled.) -/
def getNestedValue (t : Tree) (path : String) : Option Tree :=
  (path.data.splitOn '.').foldl
    (fun cur seg =>
      match cur with
      | none => none
      | some (Tree.leaf _) => none
      | some (Tree.node kvs) => kvs.lookup (String.mk seg))
    (some t)

/-- `CONFIG.fallbackLocale` from i18n.js. -/
def fallbackLocale : String := "en"

/-- The in-memory state `t` reads: `this.currentLocale` and
`this.translations` (locale → loaded bundle). -/
structure I18nState where
  currentLocale : String
  translations : List (String × Tree)

/-- JS string coercion of a translation value when it is written into the
DOM (`textContent`/`alt`): a string stays itself, a plain object renders
as `[object Object]`. -/
def treeToString : Tree → String
  | Tree.leaf s => s
  | Tree.node _ => "[object Object]"

/-- The `locale = locale || this.currentLocale` default at the top of
`I18n.t`: JS `||` treats the empty string as absent. -/
def resolveLocale (st : I18nState) (localeArg : Option String) : String :=
  match localeArg with
  | some l => if l = "" then st.currentLocale else l
  | none => st.currentLocale

/-- The `translation` value computed by `I18n.t` once the locale's bundle
is loaded: the key resolved in that bundle, retried against the fallback
bundle (when the locale is not the fallback locale and that bundle is
loaded). -/
def translationFor (st : I18nState) (locale : String) (bundle : Tree) (key : String) :
    Option Tree :=
  match getNestedValue bundle key with
  | some v => some v
  | none =>
    if locale ≠ fallbackLocale then
      match st.translations.lookup fallbackLocale with
      | some fb => getNestedValue fb key
      | none => none
    else none

/-- The tail of `I18n.t`: interpolation runs only when `params` is
non-empty (`Object.keys(params).length > 0`); applying it to a non-string
translation value is a thrown `TypeError` (`String.prototype.replace` on
a plain object), modelled as `.error`. -/
def applyParams (params : List (String × String)) (v : Tree) : Except Unit Tree :=
  if params = [] then .ok v
  else
    match v with
    | Tree.leaf s => .ok (Tree.leaf (interpolate params s))
    | Tree.node _ => .error ()

/-- `I18n.t(key, params, locale)`.  When the resolved locale's bundle is
not loaded, or the key resolves nowhere, the raw key is returned
(never `undefined`, never a thrown error). -/
def I18n.t (st : I18nState) (key : String) (params : List (String × String))
    (localeArg : Option String) : Except Unit Tree :=
  match st.translations.lookup (resolveLocale st localeArg) with
  | none => .ok (Tree.leaf key)
  | some bundle =>
    match translationFor st (resolveLocale st localeArg) bundle key with
    | none => .ok (Tree.leaf key)
    | some v => applyParams params v

/-! ## Translation loading (`i18n.js`, `I18n.loadTranslations`)

The event loop runs each synchronous segment atomically.  A load is the
synchronous prefix (pending-promise check, cache check, fetch issue and
registration of the shared promise) followed by the continuation once the
fetch settles; `runLoadTranslations` composes the two, with the fetch
outcome supplied by `env` (`none` = fetch failure).  A call that finds a
pending promise returns `awaits pid`: it awaits that same promise and
runs nothing itself. -/

/-- An entry of `this.cache` (`saveToCache` stores the data with
`Date.now()`). -/
structure CacheEntry where
  data : Tree
  timestamp : Nat

/-- The loader's state: `this.translations`, `this.cache`,
`this.loadingPromises` (locale → identity of the shared pending promise),
plus a log of the fetches issued (in order) and a counter for promise
identities. -/
structure I18nLoadState where
  translations : List (String × Tree)
  cache : List (String × CacheEntry)
  loadingPromises : List (String × Nat)
  fetchLog : List String
  nextId : Nat

/-- `CONFIG.cacheExpiration` (one hour in milliseconds). -/
def cacheExpiration : Nat := 3600000

/-- `I18n.getFromCache`: expired entries are deleted and miss. -/
def getFromCache (now : Nat) (locale : String) (s : I18nLoadState) :
    Option Tree × I18nLoadState :=
  match s.cache.lookup locale with
  | none => (none, s)
  | some e =>
    if now - e.timestamp > cacheExpiration then
      (none, { s with cache := eraseKey locale s.cache })
    else (some e.data, s)

/-- Result of a `loadTranslations` call: a bundle, a propagated failure,
or joining the promise already pending for that locale. -/
inductive LoadOutcome where
  | ok : Tree → LoadOutcome
  | failed : LoadOutcome
  | awaits : Nat → LoadOutcome

/-- `I18n.loadTranslations(locale)`: join a pending load, else serve from
cache, else fetch; on fetch failure fall back once to
`CONFIG.fallbackLocale` (recursing into the same function), else
propagate the failure; the `finally` clause removes the pending entry. -/
def runLoadTranslations (env : String → Option Tree) (now : Nat) (locale : String)
    (s : I18nLoadState) : LoadOutcome × I18nLoadState :=
  match s.loadingPromises.lookup locale with
  | some pid => (.awaits pid, s)
  | none =>
    match getFromCache now locale s with
    | (some data, s1) =>
      (.ok data, { s1 with translations := setKey locale data s1.translations })
    | (none, s1) =>
      let pid := s1.nextId
      let s2 := { s1 with
        loadingPromises := (locale, pid) :: s1.loadingPromises,
        fetchLog := s1.fetchLog ++ [locale],
        nextId := pid + 1 }
      match env locale with
      | some data =>
        (.ok data,
         { s2 with
            translations := setKey locale data s2.translations,
            cache := setKey locale ⟨data, now⟩ s2.cache,
            loadingPromises := eraseKey locale s2.loadingPromises })
      | none =>
        if locale ≠ fallbackLocale then
          let r := runLoadTranslations env now fallbackLocale s2
          (r.1, { r.2 with loadingPromises := eraseKey locale r.2.loadingPromises })
        else
          (.failed, { s2 with loadingPromises := eraseKey locale s2.loadingPromises })
termination_by (if locale = fallbackLocale then 0 else 1)
decreasing_by simp_all

/-! ## Font loader (`FontLoader`, second module of locale-detector.js)

`loadFont(name)` is split at its event-loop suspension point: the
synchronous prefix (`loadFontStart`: loaded-set check, pending-promise
check, config lookup, CSS link injection and registration of the shared
promise) and the continuation once the CSS load settles
(`loadFontSettle`); the CSS outcome is supplied by `env`.
`_waitForFontLoad` never rejects, so the load promise never rejects: it
resolves `true` or `false`. -/

/-- `FONT_CONFIG.web`: font name → stylesheet URL. -/
def webFontTable : List (String × String) :=
  [("Noto Sans Arabic",
    "https://fonts.googleapis.com/css2?family=Noto+Sans+Arabic:wght@400;600;700&display=swap"),
   ("Noto Sans Devanagari",
    "https://fonts.googleapis.com/css2?family=Noto+Sans+Devanagari:wght@400;600;700&display=swap"),
   ("Noto Sans JP",
    "https://fonts.googleapis.com/css2?family=Noto+Sans+JP:wght@400;600;700&display=swap"),
   ("Amiri",
    "https://fonts.googleapis.com/css2?family=Amiri:wght@400;700&display=swap"),
   ("Roboto",
    "https://fonts.googleapis.com/css2?family=Roboto:wght@400;500;700&display=swap")]

/-- `FontLoader` state: `this.loadedFonts`, `this.loadingPromises`
(font name → identity of the shared pending promise), the stylesheet
links present in `document.head`, and a promise-identity counter. -/
structure FontState where
  loadedFonts : List String
  loadingPromises : List (String × Nat)
  links : List String
  nextId : Nat

/-- Result of the synchronous prefix of `loadFont`. -/
inductive FontStart where
  | alreadyLoaded : FontStart
  | joined : Nat → FontStart
  | noConfig : FontStart
  | started : Nat → String → Bool → FontStart

/-- Synchronous prefix of `FontLoader.loadFont(name)`: an already-loaded
font resolves `true` at once; a pending load is joined; an unknown font
resolves `false`; otherwise the CSS link is injected (unless the same
href is already in the head) and the shared promise is registered.
`started pid url pre` records the promise identity, the stylesheet URL
and whether the link pre-existed. -/
def loadFontStart (name : String) (s : FontState) : FontStart × FontState :=
  if name ∈ s.loadedFonts then (.alreadyLoaded, s)
  else
    match s.loadingPromises.lookup name with
    | some pid => (.joined pid, s)
    | none =>
      match webFontTable.lookup name with
      | none => (.noConfig, s)
      | some url =>
        let pre := s.links.contains url
        let s1 := if pre then s else { s with links := s.links ++ [url] }
        (.started s1.nextId url pre,
         { s1 with
            loadingPromises := (name, s1.nextId) :: s1.loadingPromises,
            nextId := s1.nextId + 1 })

/-- Continuation of `loadFont` once the CSS link settles: on success the
font is marked loaded and the promise resolves `true`; on error it
resolves `false`; either way the pending entry is removed (a pre-existing
link resolves immediately, hence successfully). -/
def loadFontSettle (env : String → Bool) (name url : String) (pre : Bool) (s : FontState) :
    Bool × FontState :=
  let ok := pre || env url
  let s1 := { s with loadingPromises := eraseKey name s.loadingPromises }
  if ok then (true, { s1 with loadedFonts := s1.loadedFonts ++ [name] })
  else (false, s1)

/-! ## Language switcher (`LanguageSwitcher`, third module of
locale-detector.js)

`changeLanguage(newLocale)` orchestrates six steps in order; `throws`
says which collaborator steps throw.  The collaborators' external side
effects are recorded in an `effects` log.  Cross-module coupling that
matters here: `window.setLocale` (step 1) dispatches `localechanged`
synchronously, and `i18n.changeLocale` (step 3) dispatches `i18nchanged`
synchronously; the switcher's own `syncWithExternalChanges` listeners run
during those dispatches and overwrite `currentLocale` and the select
value with the new locale.  The model keeps the detector's and the
i18n store's current-locale in lockstep with the switcher's (as the
event listeners do in the running page), and assumes the select element
and the live region exist. -/

/-- The six steps of `changeLanguage`, in source order. -/
inductive SwStep where
  | setLocaleStep : SwStep
  | fontsStep : SwStep
  | i18nStep : SwStep
  | rtlStep : SwStep
  | formatterStep : SwStep
  | vlibrasStep : SwStep
deriving DecidableEq, Repr

/-- The order in which `changeLanguage` runs its steps. -/
def swStepOrder : List SwStep :=
  [.setLocaleStep, .fontsStep, .i18nStep, .rtlStep, .formatterStep, .vlibrasStep]

/-- The `detail` of the `languagechanged` custom event (the
`languageData` field is derived from `locale` and not modelled). -/
structure EventDetail where
  locale : String
  previousLocale : String
deriving DecidableEq, Repr

/-- Observable switcher state: its fields, the select element, the live
region text, the dispatched `languagechanged` events, and the log of
collaborator side effects already performed. -/
structure SwitcherState where
  currentLocale : String
  isChanging : Bool
  selectValue : String
  selectDisabled : Bool
  selectLoading : Bool
  announced : Option String
  events : List EventDetail
  effects : List (SwStep × String)
deriving DecidableEq, Repr

/-- `LanguageSwitcher.setLoading`. -/
def setLoading (b : Bool) (s : SwitcherState) : SwitcherState :=
  if b then { s with selectLoading := true, selectDisabled := true, isChanging := true }
  else { s with selectLoading := false, selectDisabled := false, isChanging := false }

/-- `LanguageSwitcher.updateSelectValue`. -/
def updateSelectValue (l : String) (s : SwitcherState) : SwitcherState :=
  if s.selectValue ≠ l then { s with selectValue := l } else s

/-- `LANGUAGE_DATA[locale].nativeName`, with the `pt-BR` default of
`getLanguageData`. -/
def nativeNameOf (locale : String) : String :=
  match ([("pt-BR", "Português (Brasil)"), ("en", "English (US)"), ("es", "Español"),
          ("ar", "العربية"), ("hi", "हिन्दी"), ("ja", "日本語"),
          ("ru", "Русский")] : List (String × String)).lookup locale with
  | some n => n
  | none => "Português (Brasil)"

/-- `LanguageSwitcher.getChangeAnnouncement`. -/
def getChangeAnnouncement (locale : String) : String :=
  match ([("pt-BR", "Idioma alterado para Português Brasil"),
          ("en", "Language changed to English"),
          ("es", "Idioma cambiado a Español"),
          ("ar", "تم تغيير اللغة إلى العربية"),
          ("hi", "भाषा हिन्दी में बदली गई"),
          ("ja", "言語が日本語に変更されました"),
          ("ru", "Язык изменен на Русский")] : List (String × String)).lookup locale with
  | some m => m
  | none => "Language changed to " ++ nativeNameOf locale

/-- The generic error announcement of the `catch` block. -/
def swErrorMessage : String := "Erro ao mudar idioma. Por favor, tente novamente."

/-- One completed step of `changeLanguage`: its external effect is
logged; steps 1 and 3 dispatch events whose switcher listeners
synchronously align `currentLocale` and the select with the new locale
(`window.setLocale` only when the locale is supported). -/
def applyStep (newLocale : String) (st : SwStep) (s : SwitcherState) : SwitcherState :=
  match st with
  | .setLocaleStep =>
    if newLocale ∈ SUPPORTED_LOCALES then
      let s1 := { s with effects := s.effects ++ [(st, newLocale)] }
      if newLocale ≠ s1.currentLocale then
        updateSelectValue newLocale { s1 with currentLocale := newLocale }
      else s1
    else s
  | .i18nStep =>
    let s1 := { s with effects := s.effects ++ [(st, newLocale)] }
    if newLocale ≠ s1.currentLocale then
      updateSelectValue newLocale { s1 with currentLocale := newLocale }
    else s1
  | _ => { s with effects := s.effects ++ [(st, newLocale)] }

/-- Run the remaining steps in order; a throwing step aborts the
sequence (its effect not performed), surfacing `false` to the `catch`. -/
def runSwSteps (throws : SwStep → Bool) (newLocale : String) :
    List SwStep → SwitcherState → Bool × SwitcherState
  | [], s => (true, s)
  | st :: rest, s =>
    if throws st then (false, s)
    else runSwSteps throws newLocale rest (applyStep newLocale st s)

/-- `LanguageSwitcher.changeLanguage(newLocale)`: guard on `isChanging`,
no-op on an unchanged locale, else loading state on, the six steps, then
on success `currentLocale := newLocale`, the localized announcement and
the `languagechanged` event whose `previousLocale` reads
`this.currentLocale` after that assignment; on a thrown step the select
is set to `this.currentLocale` and the generic error announced; the
`finally` clause always clears the loading state. -/
def changeLanguage (throws : SwStep → Bool) (newLocale : String) (s : SwitcherState) :
    Bool × SwitcherState :=
  if s.isChanging then (false, s)
  else if s.currentLocale = newLocale then (true, s)
  else
    let s1 := setLoading true s
    let r := runSwSteps throws newLocale swStepOrder s1
    if r.1 then
      let s3 : SwitcherState := { r.2 with currentLocale := newLocale }
      let s4 := { s3 with announced := some (getChangeAnnouncement newLocale) }
      let s5 := { s4 with events := s4.events ++ [⟨newLocale, s3.currentLocale⟩] }
      (true, setLoading false s5)
    else
      let s3 := updateSelectValue r.2.currentLocale r.2
      let s4 := { s3 with announced := some swErrorMessage }
      (false, setLoading false s4)

/-- The switcher state before the failing change of the C5 scenario. -/
def c5StartState : SwitcherState := ⟨"pt-BR", false, "pt-BR", false, false, none, [], []⟩

/-- The i18n step throws (e.g. the translation fetch and its fallback
both fail), the earlier steps complete. -/
def c5Throws : SwStep → Bool := fun st => decide (st = SwStep.i18nStep)

/-! ## RTL support (`RTLSupport`, src/unnamed/part_006)

`setDirection` walks fixed DOM query categories; each category is
modelled as a list of element records carrying exactly the state the
adjustment reads and writes (classes, the swapped attributes, the marker
attributes).  `isExcluded` is a per-element flag.  The transient
`rtl-transitioning` class is added and removed again by a timer and is
omitted from the settled state. -/

/-- A sample store for exercising `t`: the `pt-BR` bundle lacks
`footer.contact`, the `en` fallback bundle has it. -/
def c4State : I18nState :=
  ⟨"pt-BR",
   [("pt-BR", Tree.node [("nav", Tree.node [("home", Tree.leaf "Início")])]),
    ("en", Tree.node [("footer", Tree.node [("contact", Tree.leaf "Contact")])])]⟩

/-- A loader state with a load already pending for `es` (promise 7). -/
def c3PendingState : I18nLoadState := ⟨[], [], [("es", 7)], [], 9⟩

/-- A loader state with nothing cached, nothing pending. -/
def c3CleanState : I18nLoadState := ⟨[], [], [], [], 0⟩

/-! ## Page translation (`i18n.js`, `I18n.translatePage`)

The DOM fragment `translatePage` touches: the document is the list of
elements `querySelectorAll` yields in document order; each element carries
the i18n data attributes, the writable translation targets (placeholder,
title, aria-label, alt, text content) and its direct child nodes.
`data-i18n-params` holds the attribute's JSON object already parsed to an
association list (an absent attribute is `none`). -/

/-- A direct child node of an element: a text node with its character
data, or a child element (opaque here; `element.children` counts exactly
these). -/
inductive ChildNode where
  | text : String → ChildNode
  | elem : Nat → ChildNode
deriving DecidableEq, Repr

/-- `node.nodeType === Node.ELEMENT_NODE` for a direct child node. -/
def ChildNode.isElem : ChildNode → Bool
  | ChildNode.text _ => false
  | ChildNode.elem _ => true

/-- One element as `translatePage` sees it. -/
structure Elem where
  tag : String
  dataI18n : Option String
  dataI18nParams : Option (List (String × String))
  dataI18nPlaceholder : Option String
  dataI18nTitle : Option String
  dataI18nAria : Option String
  placeholder : String
  title : String
  ariaLabel : Option String
  alt : String
  childNodes : List ChildNode
deriving DecidableEq, Repr

/-- `this.t(key)` with the default empty params and current locale.  With
empty params `applyParams` skips interpolation, so `t` always returns a
value; the error arm is unreachable. -/
def tValue (st : I18nState) (key : String) : Tree :=
  match I18n.t st key [] none with
  | Except.ok v => v
  | Except.error _ => Tree.leaf key

/-- The string a `this.t(key)` result turns into when written to a DOM
string slot. -/
def tString (st : I18nState) (key : String) : String :=
  treeToString (tValue st key)

/-- `element.textContent = s`: every child node is removed and replaced
by a single text node (by none when `s` is the empty string). -/
def setTextContent (s : String) : List ChildNode :=
  if s = "" then [] else [ChildNode.text s]

/-- `Array.from(element.childNodes).find(node => node.nodeType ===
Node.TEXT_NODE)` followed by `textNode.textContent = s`: the first direct
text node's data becomes `s`; every other child node is untouched (and
nothing happens when there is no direct text node). -/
def replaceFirstTextNode (s : String) : List ChildNode → List ChildNode
  | [] => []
  | ChildNode.text _ :: rest => ChildNode.text s :: rest
  | ChildNode.elem n :: rest => ChildNode.elem n :: replaceFirstTextNode s rest

/-- The placeholder half of the `INPUT`/`TEXTAREA` branch of the
`[data-i18n]` pass: `if (placeholder) element.placeholder =
this.t(placeholder)` — JS truthiness skips an absent or empty
attribute. -/
def applyPlaceholderInline (st : I18nState) (e : Elem) : Elem :=
  match e.dataI18nPlaceholder with
  | some k => if k = "" then e else { e with placeholder := tString st k }
  | none => e

/-- The aria half of the `INPUT`/`TEXTAREA` branch of the `[data-i18n]`
pass. -/
def applyAriaInline (st : I18nState) (e : Elem) : Elem :=
  match e.dataI18nAria with
  | some k => if k = "" then e else { e with ariaLabel := some (tString st k) }
  | none => e

/-- One element of the `[data-i18n]` pass of `translatePage`: skip a
falsy key; compute `this.t(key, params)` (which throws when a non-empty
params object meets a non-string translation value); then write it to the
branch-appropriate target — placeholder/aria data attributes for form
fields, `alt` for images, and text content otherwise, where an element
with child element nodes only has its first direct text node replaced.
An element without the attribute is not in the `querySelectorAll` list,
so it is returned unchanged. -/
def applyDataI18n (st : I18nState) (e : Elem) : Except Unit Elem :=
  match e.dataI18n with
  | none => Except.ok e
  | some key =>
    if key = "" then Except.ok e
    else
      match I18n.t st key (e.dataI18nParams.getD []) none with
      | Except.error u => Except.error u
      | Except.ok tr =>
        if e.tag = "INPUT" ∨ e.tag = "TEXTAREA" then
          Except.ok (applyAriaInline st (applyPlaceholderInline st e))
        else if e.tag = "IMG" then
          Except.ok { e with alt := treeToString tr }
        else if e.childNodes.filter ChildNode.isElem = [] then
          Except.ok { e with childNodes := setTextContent (treeToString tr) }
        else
          Except.ok { e with childNodes := replaceFirstTextNode (treeToString tr) e.childNodes }

/-- `forEach` with a throwing callback: the traversal runs left to right
and a thrown exception aborts it and propagates out of `translatePage`. -/
def mapExcept (f : Elem → Except Unit Elem) : List Elem → Except Unit (List Elem)
  | [] => Except.ok []
  | e :: rest =>
    match f e with
    | Except.error u => Except.error u
    | Except.ok e2 =>
      match mapExcept f rest with
      | Except.error u => Except.error u
      | Except.ok rest2 => Except.ok (e2 :: rest2)

/-- The `[data-i18n-placeholder]` pass: the selector requires only
presence of the attribute, and there is no truthiness guard here. -/
def applyPlaceholderPass (st : I18nState) (e : Elem) : Elem :=
  match e.dataI18nPlaceholder with
  | some k => { e with placeholder := tString st k }
  | none => e

/-- The `[data-i18n-title]` pass. -/
def applyTitlePass (st : I18nState) (e : Elem) : Elem :=
  match e.dataI18nTitle with
  | some k => { e with title := tString st k }
  | none => e

/-- The `[data-i18n-aria]` pass (`element.setAttribute('aria-label',
this.t(key))`). -/
def applyAriaPass (st : I18nState) (e : Elem) : Elem :=
  match e.dataI18nAria with
  | some k => { e with ariaLabel := some (tString st k) }
  | none => e

/-- `I18n.translatePage`: the `[data-i18n]` pass (the only one that can
throw, via interpolation), then the placeholder, title and aria-label
passes, each a full walk over the document. -/
def translatePage (st : I18nState) (doc : List Elem) : Except Unit (List Elem) :=
  match mapExcept (applyDataI18n st) doc with
  | Except.error u => Except.error u
  | Except.ok d1 =>
    Except.ok (((d1.map (applyPlaceholderPass st)).map (applyTitlePass st)).map
      (applyAriaPass st))

/-- What claim C9 asserts of one element before (`e`) and after (`e2`)
`translatePage`: each attribute target carrying its marking attribute is
rewritten to the translation; a marked text element with no child element
nodes has its whole text content rewritten to the translation; a marked
mixed-content element has exactly its first direct text node replaced;
and the child element nodes are always left intact. -/
def elemTranslated (st : I18nState) (e e2 : Elem) : Prop :=
  (∀ k, e.dataI18nPlaceholder = some k → e2.placeholder = tString st k) ∧
  (∀ k, e.dataI18nTitle = some k → e2.title = tString st k) ∧
  (∀ k, e.dataI18nAria = some k → e2.ariaLabel = some (tString st k)) ∧
  (∀ key v, e.dataI18n = some key → key ≠ "" → e.tag = "IMG" →
    I18n.t st key (e.dataI18nParams.getD []) none = Except.ok v →
    e2.alt = treeToString v) ∧
  (∀ key v, e.dataI18n = some key → key ≠ "" →
    e.tag ≠ "INPUT" → e.tag ≠ "TEXTAREA" → e.tag ≠ "IMG" →
    e.childNodes.filter ChildNode.isElem = [] →
    I18n.t st key (e.dataI18nParams.getD []) none = Except.ok v →
    e2.childNodes = setTextContent (treeToString v)) ∧
  (∀ key v, e.dataI18n = some key → key ≠ "" →
    e.tag ≠ "INPUT" → e.tag ≠ "TEXTAREA" → e.tag ≠ "IMG" →
    e.childNodes.filter ChildNode.isElem ≠ [] →
    I18n.t st key (e.dataI18nParams.getD []) none = Except.ok v →
    e2.childNodes = replaceFirstTextNode (treeToString v) e.childNodes) ∧
  e2.childNodes.filter ChildNode.isElem = e.childNodes.filter ChildNode.isElem

/-- A loaded `pt-BR` bundle for the page-translation witness. -/
def c9State : I18nState :=
  ⟨"pt-BR",
   [("pt-BR", Tree.node
      [("nav", Tree.node [("home", Tree.leaf "Início")]),
       ("greet", Tree.leaf "Ola, \x7b\x7bname\x7d\x7d!")])]⟩

/-- A small document exercising every branch: a mixed-content DIV, an
IMG with interpolation params, an INPUT with placeholder/aria markers, a
SPAN with a title marker, and a childless P. -/
def c9Doc : List Elem :=
  [⟨"DIV", some "nav.home", none, none, none, none, "", "", none, "",
     [ChildNode.text "old", ChildNode.elem 0, ChildNode.text "tail"]⟩,
   ⟨"IMG", some "greet", some [("name", "Ana")], none, none, none, "", "", none, "", []⟩,
   ⟨"INPUT", some "nav.home", none, some "nav.home", none, some "nav.home",
     "", "", none, "", []⟩,
   ⟨"SPAN", none, none, none, some "nav.home", none, "", "", none, "", []⟩,
   ⟨"P", some "nav.home", none, none, none, none, "", "", none, "", []⟩]

/-- The document `translatePage` produces from `c9Doc` under `c9State`. -/
def c9Out : List Elem :=
  [⟨"DIV", some "nav.home", none, none, none, none, "", "", none, "",
     [ChildNode.text "Início", ChildNode.elem 0, ChildNode.text "tail"]⟩,
   ⟨"IMG", some "greet", some [("name", "Ana")], none, none, none, "", "", none,
     "Ola, Ana!", []⟩,
   ⟨"INPUT", some "nav.home", none, some "nav.home", none, some "nav.home",
     "Início", "", some "Início", "", []⟩,
   ⟨"SPAN", none, none, none, some "nav.home", none, "", "Início", none, "", []⟩,
   ⟨"P", some "nav.home", none, none, none, none, "", "", none, "",
     [ChildNode.text "Início"]⟩]

end CabraDaTech

namespace CabraDaTech

/-- Claim C1: for a browser-language list containing a supported locale or a
variant that the fallback table maps, `detectBrowserLocale` returns that
locale or its defined fallback, never an unsupported code.  The code
violates the fallback half: `normalizeLocale` lower-cases the input, but
the fallback table keys `en-US`, `en-GB`, `es-ES`, `es-MX`, `ar-SA`,
`ar-EG`, `hi-IN`, `ja-JP`, `ru-RU` are mixed-case, so they can never be
hit; `['en-US']`, which the table maps to `en`, falls through to the
default `pt-BR`. -/
theorem detectBrowserLocale_enUS_ignores_fallback_table :
    LOCALE_FALLBACKS.lookup "en-US" = some "en" ∧
    normalizeLocale "en-US" = "en-us" ∧
    detectBrowserLocale ["en-US"] = "pt-BR" ∧
    ("pt-BR" : String) ≠ "en-US" ∧ ("pt-BR" : String) ≠ "en" := by
  refine ⟨rfl, ?_, ?_, by decide, by decide⟩ <;> rfl

/-- Running the interpolation scan on the empty text yields the empty
text, whatever the fuel. -/
theorem interpolateAux_nil (params : List (String × String)) (fuel : Nat) :
    interpolateAux params fuel [] = [] := by
  cases fuel <;> rfl

/-- A character other than `\x7b` is copied unchanged and the scan
continues after it. -/
theorem interpolateAux_cons_ne (params : List (String × String)) (f : Nat) (c : Char)
    (l : List Char) (hc : c ≠ '\x7b') :
    interpolateAux params (f + 1) (c :: l) = c :: interpolateAux params f l := by
  simp [interpolateAux, hc]

/-- A `\x7b` not followed by a second `\x7b` is copied unchanged (the
regex restarts at the next character). -/
theorem interpolateAux_brace_ne (params : List (String × String)) (f : Nat) (d : Char)
    (l : List Char) (hd : d ≠ '\x7b') :
    interpolateAux params (f + 1) ('\x7b' :: d :: l) = '\x7b' :: interpolateAux params f (d :: l) := by
  simp [interpolateAux, hd]

/-- `takeWhile` over a satisfying block followed by a failing element. -/
theorem takeWhile_append_stop {α : Type} (p : α → Bool) (xs : List α) (y : α) (ys : List α)
    (hx : ∀ c ∈ xs, p c) (hy : ¬ p y) :
    (xs ++ y :: ys).takeWhile p = xs := by
  induction xs with
  | nil => simp [List.takeWhile_cons, hy]
  | cons a xs ih =>
    have ha : p a := hx a (by simp)
    simp [List.takeWhile_cons, ha]
    exact ih (fun c hc => hx c (by simp [hc]))

/-- `dropWhile` over a satisfying block followed by a failing element. -/
theorem dropWhile_append_stop {α : Type} (p : α → Bool) (xs : List α) (y : α) (ys : List α)
    (hx : ∀ c ∈ xs, p c) (hy : ¬ p y) :
    (xs ++ y :: ys).dropWhile p = y :: ys := by
  induction xs with
  | nil => simp [List.dropWhile_cons, hy]
  | cons a xs ih =>
    have ha : p a := hx a (by simp)
    simp [List.dropWhile_cons, ha]
    exact ih (fun c hc => hx c (by simp [hc]))

/-- At a well-formed `\x7b\x7btok\x7d\x7d` occurrence the scan substitutes
the parameter (or keeps the occurrence verbatim) and continues after it. -/
theorem interpolateAux_step (params : List (String × String)) (f : Nat) (tok suf : List Char)
    (htok : tok ≠ []) (hw : ∀ c ∈ tok, isWordChar c) :
    interpolateAux params (f + 1) ('\x7b' :: '\x7b' :: (tok ++ '\x7d' :: '\x7d' :: suf)) =
      (match params.lookup (String.mk tok) with
       | some v => v.data ++ interpolateAux params f suf
       | none => '\x7b' :: '\x7b' :: (tok ++ '\x7d' :: '\x7d' :: interpolateAux params f suf)) := by
  have ht : (tok ++ '\x7d' :: '\x7d' :: suf).takeWhile isWordChar = tok :=
    takeWhile_append_stop isWordChar tok '\x7d' ('\x7d' :: suf) hw (by decide)
  have hd : (tok ++ '\x7d' :: '\x7d' :: suf).dropWhile isWordChar = '\x7d' :: '\x7d' :: suf :=
    dropWhile_append_stop isWordChar tok '\x7d' ('\x7d' :: suf) hw (by decide)
  simp only [interpolateAux, if_pos rfl, ht, hd, htok, if_neg htok]
  simp

/-- Any two sufficient fuels compute the same interpolation result. -/
theorem interpolateAux_fuel_irrel (params : List (String × String)) :
    ∀ f g l, l.length ≤ f → l.length ≤ g →
      interpolateAux params f l = interpolateAux params g l := by
  intro f
  induction f with
  | zero =>
    intro g l hf _
    have : l = [] := List.length_eq_zero.mp (Nat.le_zero.mp hf)
    subst this
    simp [interpolateAux_nil]
  | succ f ih =>
    intro g l hf hg
    cases l with
    | nil => simp [interpolateAux_nil]
    | cons c rest =>
      cases g with
      | zero => simp at hg
      | succ g =>
        simp only [List.length_cons, Nat.add_le_add_iff_right] at hf hg
        by_cases hc : c = '\x7b'
        · subst hc
          cases rest with
          | nil => simp [interpolateAux]
          | cons d rest' =>
            simp only [List.length_cons] at hf hg
            by_cases hd : d = '\x7b'
            · subst hd
              have hrec1f : ('\x7b' :: rest').length ≤ f := by simp; omega
              have hrec1g : ('\x7b' :: rest').length ≤ g := by simp; omega
              have hdlen : (rest'.dropWhile isWordChar).length ≤ rest'.length :=
                (List.dropWhile_sublist isWordChar).length_le
              have hrec2f : ((rest'.dropWhile isWordChar).drop 2).length ≤ f := by
                simp [List.length_drop]; omega
              have hrec2g : ((rest'.dropWhile isWordChar).drop 2).length ≤ g := by
                simp [List.length_drop]; omega
              simp only [interpolateAux,
                ih g ('\x7b' :: rest') hrec1f hrec1g,
                ih g ((rest'.dropWhile isWordChar).drop 2) hrec2f hrec2g]
            · rw [interpolateAux_brace_ne params f d rest' hd,
                  interpolateAux_brace_ne params g d rest' hd]
              rw [ih g (d :: rest') (by simp; omega) (by simp; omega)]
        · rw [interpolateAux_cons_ne params f c rest hc,
              interpolateAux_cons_ne params g c rest hc]
          rw [ih g rest hf hg]

/-- The scan result over `pre ++ \x7b\x7btok\x7d\x7d ++ suf` with a clean
prefix: the occurrence is replaced (or kept) and the scan recurses on the
suffix. -/
theorem interpolateAux_general (params : List (String × String)) (tok suf : List Char)
    (htok : tok ≠ []) (hw : ∀ c ∈ tok, isWordChar c) :
    ∀ (pre : List Char) (fuel : Nat),
      (∀ c ∈ pre, c ≠ '\x7b') →
      (pre ++ '\x7b' :: '\x7b' :: (tok ++ '\x7d' :: '\x7d' :: suf)).length ≤ fuel →
      interpolateAux params fuel (pre ++ '\x7b' :: '\x7b' :: (tok ++ '\x7d' :: '\x7d' :: suf)) =
        pre ++
          (match params.lookup (String.mk tok) with
           | some v => v.data
           | none => '\x7b' :: '\x7b' :: (tok ++ ['\x7d', '\x7d'])) ++
          interpolateAux params suf.length suf := by
  intro pre
  induction pre with
  | nil =>
    intro fuel _ hf
    simp only [List.nil_append, List.length_cons, List.length_append] at hf ⊢
    cases fuel with
    | zero => omega
    | succ f =>
      rw [interpolateAux_step params f tok suf htok hw]
      have hsf : suf.length ≤ f := by simp at hf; omega
      rw [interpolateAux_fuel_irrel params f suf.length suf hsf (Nat.le_refl _)]
      cases List.lookup (String.mk tok) params with
      | none => simp
      | some v => simp
  | cons c pre' ih =>
    intro fuel hpre hf
    have hc : c ≠ '\x7b' := hpre c (by simp)
    cases fuel with
    | zero => simp at hf
    | succ f =>
      rw [List.cons_append, interpolateAux_cons_ne params f c _ hc]
      rw [ih f (fun x hx => hpre x (by simp [hx])) (by simp at hf ⊢; omega)]
      simp

/-- Claim C8: `_interpolate` replaces every `\x7b\x7btoken\x7d\x7d`
occurrence whose token has a value in `params` by that value, and leaves
an occurrence whose token is absent from `params` unchanged; the text
around the occurrence is copied verbatim and the scan continues on the
suffix. -/
theorem interpolate_replaces_tokens (params : List (String × String)) (pre tok suf : List Char)
    (hpre : ∀ c ∈ pre, c ≠ '\x7b') (htok : tok ≠ []) (hw : ∀ c ∈ tok, isWordChar c) :
    interpolate params (String.mk (pre ++ '\x7b' :: '\x7b' :: (tok ++ '\x7d' :: '\x7d' :: suf))) =
      String.mk (pre ++
        (match params.lookup (String.mk tok) with
         | some v => v.data
         | none => '\x7b' :: '\x7b' :: (tok ++ ['\x7d', '\x7d'])) ++
        interpolateAux params suf.length suf) := by
  unfold interpolate
  congr 1
  exact interpolateAux_general params tok suf htok hw pre _ hpre (by simp)

/-- Witness for C8: on the template `Olá \x7b\x7bname\x7d\x7d` with
`name = Ana` the result is `Olá Ana`; with an unmatched token the
template is returned unchanged. -/
theorem interpolate_replaces_tokens_w :
    ((∀ c ∈ "Olá ".data, c ≠ '\x7b') ∧ "name".data ≠ []) ∧
    interpolate [("name", "Ana")] "Olá \x7b\x7bname\x7d\x7d" = "Olá Ana" ∧
    interpolate [("name", "Ana")] "Oi \x7b\x7bmissing\x7d\x7d" = "Oi \x7b\x7bmissing\x7d\x7d" := by
  refine ⟨⟨by decide, by decide⟩, ?_, ?_⟩
  · exact (interpolate_replaces_tokens [("name", "Ana")] "Olá ".data "name".data []
      (by decide) (by decide) (by decide)).trans (by decide)
  · exact (interpolate_replaces_tokens [("name", "Ana")] "Oi ".data "missing".data []
      (by decide) (by decide) (by decide)).trans (by decide)

/-- Compute rule for `t`: unloaded bundle for the resolved locale. -/
theorem t_of_no_bundle (st : I18nState) (key : String) (params : List (String × String))
    (localeArg : Option String) (loc : String)
    (hres : resolveLocale st localeArg = loc)
    (h : st.translations.lookup loc = none) :
    I18n.t st key params localeArg = Except.ok (Tree.leaf key) := by
  unfold I18n.t
  rw [hres, h]

/-- Compute rule for `t`: loaded bundle, key resolving nowhere. -/
theorem t_of_translation_none (st : I18nState) (key : String) (params : List (String × String))
    (localeArg : Option String) (loc : String) (bundle : Tree)
    (hres : resolveLocale st localeArg = loc)
    (hb : st.translations.lookup loc = some bundle)
    (ht : translationFor st loc bundle key = none) :
    I18n.t st key params localeArg = Except.ok (Tree.leaf key) := by
  unfold I18n.t
  rw [hres, hb]
  show (match translationFor st loc bundle key with
        | none => (Except.ok (Tree.leaf key) : Except Unit Tree)
        | some v => applyParams params v) = Except.ok (Tree.leaf key)
  rw [ht]

/-- Compute rule for `t`: loaded bundle, key resolving to a value. -/
theorem t_of_translation_some (st : I18nState) (key : String) (params : List (String × String))
    (localeArg : Option String) (loc : String) (bundle v : Tree)
    (hres : resolveLocale st localeArg = loc)
    (hb : st.translations.lookup loc = some bundle)
    (ht : translationFor st loc bundle key = some v) :
    I18n.t st key params localeArg = applyParams params v := by
  unfold I18n.t
  rw [hres, hb]
  show (match translationFor st loc bundle key with
        | none => (Except.ok (Tree.leaf key) : Except Unit Tree)
        | some v => applyParams params v) = applyParams params v
  rw [ht]

/-- With no params, `applyParams` is the identity (no interpolation, no
possible throw). -/
theorem applyParams_nil (v : Tree) : applyParams [] v = Except.ok v := by
  simp [applyParams]

/-- Claim C4: for a key missing from locale `L`'s bundle (or with `L`'s
bundle unloaded), `t(key, \x7b\x7d, L)` returns a defined value and never
throws: either the fallback bundle's string for the key, or the raw key
itself. -/
theorem t_missing_key_returns_fallback_or_key (st : I18nState) (key L : String)
    (hL : L ≠ "")
    (hmiss : ∀ b, st.translations.lookup L = some b → getNestedValue b key = none)
    (hfb : ∀ fb v, st.translations.lookup fallbackLocale = some fb →
        getNestedValue fb key = some v → ∃ s, v = Tree.leaf s) :
    ∃ r, I18n.t st key [] (some L) = Except.ok r ∧
      (r = Tree.leaf key ∨
        ∃ s fb, st.translations.lookup fallbackLocale = some fb ∧
          getNestedValue fb key = some (Tree.leaf s) ∧ r = Tree.leaf s) := by
  have hres : resolveLocale st (some L) = L := by simp [resolveLocale, hL]
  rcases h1 : st.translations.lookup L with _ | bundle
  · exact ⟨Tree.leaf key, t_of_no_bundle st key [] (some L) L hres h1, Or.inl rfl⟩
  · have h2 : getNestedValue bundle key = none := hmiss bundle h1
    rcases h3 : translationFor st L bundle key with _ | v
    · exact ⟨Tree.leaf key, t_of_translation_none st key [] (some L) L bundle hres h1 h3,
        Or.inl rfl⟩
    · have heq := t_of_translation_some st key [] (some L) L bundle v hres h1 h3
      simp only [translationFor, h2] at h3
      by_cases hLfb : L = fallbackLocale
      · simp [hLfb] at h3
      · rw [if_pos hLfb] at h3
        rcases h4 : st.translations.lookup fallbackLocale with _ | fb
        · rw [h4] at h3
          cases h3
        · rw [h4] at h3
          obtain ⟨s, hs⟩ := hfb fb v h4 h3
          subst hs
          exact ⟨Tree.leaf s, heq.trans (applyParams_nil _), Or.inr ⟨s, fb, rfl, h3, rfl⟩⟩

/-- Witness for C4: `footer.contact` is absent from the `pt-BR` bundle
and present in the `en` fallback bundle. -/
theorem t_missing_key_returns_fallback_or_key_w :
    ("pt-BR" : String) ≠ "" ∧
    (∃ r, I18n.t c4State "footer.contact" [] (some "pt-BR") = Except.ok r ∧
      (r = Tree.leaf "footer.contact" ∨
        ∃ s fb, c4State.translations.lookup fallbackLocale = some fb ∧
          getNestedValue fb "footer.contact" = some (Tree.leaf s) ∧ r = Tree.leaf s)) := by
  refine ⟨by decide, ?_⟩
  exact t_missing_key_returns_fallback_or_key c4State "footer.contact" "pt-BR" (by decide)
    (by intro b hb; cases Option.some.inj hb; rfl)
    (by intro fb v h1 h2; cases Option.some.inj h1; exact ⟨"Contact", (Option.some.inj h2).symm⟩)

/-- A call that finds a pending promise for the locale awaits that same
promise and changes nothing (no duplicate fetch). -/
theorem runLoad_pending (env : String → Option Tree) (now : Nat) (L : String)
    (s : I18nLoadState) (pid : Nat) (hp : s.loadingPromises.lookup L = some pid) :
    runLoadTranslations env now L s = (LoadOutcome.awaits pid, s) := by
  unfold runLoadTranslations
  rw [hp]

/-- A cache miss leaves the loader state unchanged. -/
theorem getFromCache_miss (now : Nat) (L : String) (s : I18nLoadState)
    (hc : s.cache.lookup L = none) :
    getFromCache now L s = (none, s) := by
  simp [getFromCache, hc]

/-- Claim C3: at most one in-flight load per locale (a second call joins
the pending promise and issues no fetch), and on fetch failure exactly
one fallback fetch is issued, the failure propagating only when the
fallback load also fails. -/
theorem loadTranslations_single_flight_and_fallback (env : String → Option Tree) (now : Nat)
    (L : String) (s : I18nLoadState) :
    (∀ pid, s.loadingPromises.lookup L = some pid →
      runLoadTranslations env now L s = (LoadOutcome.awaits pid, s)) ∧
    (s.loadingPromises.lookup L = none →
     s.cache.lookup L = none →
     s.loadingPromises.lookup fallbackLocale = none →
     s.cache.lookup fallbackLocale = none →
     L ≠ fallbackLocale →
     env L = none →
     ((runLoadTranslations env now L s).2.fetchLog = s.fetchLog ++ [L, fallbackLocale] ∧
      ((runLoadTranslations env now L s).1 = LoadOutcome.failed ↔
        env fallbackLocale = none))) := by
  constructor
  · intro pid hp
    exact runLoad_pending env now L s pid hp
  · intro hpL hcL hpF hcF hne henv
    have hfbL : (fallbackLocale == L) = false := by
      simp [Ne.symm hne]
    unfold runLoadTranslations
    rw [hpL, getFromCache_miss now L s hcL, henv]
    simp only [if_pos hne]
    unfold runLoadTranslations
    rw [show (List.lookup fallbackLocale ((L, s.nextId) :: s.loadingPromises)) =
          List.lookup fallbackLocale s.loadingPromises from by simp [List.lookup, hfbL]]
    rw [hpF]
    have hgf := getFromCache_miss now fallbackLocale
      ⟨s.translations, s.cache, (L, s.nextId) :: s.loadingPromises,
       s.fetchLog ++ [L], s.nextId + 1⟩ hcF
    rw [hgf]
    cases hfb : env fallbackLocale with
    | some data => simp
    | none => simp

/-- Witness for C3: joining the pending `es` load, and a double failure
on `hi` fetching exactly `[hi, en]` and failing. -/
theorem loadTranslations_single_flight_and_fallback_w :
    (c3PendingState.loadingPromises.lookup "es" = some 7 ∧
      runLoadTranslations (fun _ => none) 0 "es" c3PendingState =
        (LoadOutcome.awaits 7, c3PendingState)) ∧
    ((runLoadTranslations (fun _ => none) 0 "hi" c3CleanState).2.fetchLog = ["hi", "en"] ∧
      ((runLoadTranslations (fun _ => none) 0 "hi" c3CleanState).1 = LoadOutcome.failed ↔
        (none : Option Tree) = none)) := by
  refine ⟨⟨rfl, ?_⟩, ?_⟩
  · exact (loadTranslations_single_flight_and_fallback (fun _ => none) 0 "es" c3PendingState).1
      7 rfl
  · have h := (loadTranslations_single_flight_and_fallback (fun _ => none) 0 "hi" c3CleanState).2
      rfl rfl rfl rfl (by decide) rfl
    simpa [c3CleanState, fallbackLocale] using h

/-- Claim C7: an already-loaded font resolves immediately with success and
no fetch; a call that finds a pending load for the same name joins that
same promise with no state change; a fresh load injects exactly one CSS
link, registers the shared promise, makes any concurrent call join it,
and the single settle decides the one outcome both callers receive. -/
theorem loadFont_collapses_concurrent_loads (name : String) (s : FontState) :
    (name ∈ s.loadedFonts → loadFontStart name s = (FontStart.alreadyLoaded, s)) ∧
    (∀ pid, name ∉ s.loadedFonts → s.loadingPromises.lookup name = some pid →
      loadFontStart name s = (FontStart.joined pid, s)) ∧
    (∀ url, name ∉ s.loadedFonts → s.loadingPromises.lookup name = none →
      webFontTable.lookup name = some url → s.links.contains url = false →
      (loadFontStart name s =
        (FontStart.started s.nextId url false,
         ⟨s.loadedFonts, (name, s.nextId) :: s.loadingPromises, s.links ++ [url], s.nextId + 1⟩) ∧
       loadFontStart name
          ⟨s.loadedFonts, (name, s.nextId) :: s.loadingPromises, s.links ++ [url], s.nextId + 1⟩ =
        (FontStart.joined s.nextId,
         ⟨s.loadedFonts, (name, s.nextId) :: s.loadingPromises, s.links ++ [url], s.nextId + 1⟩) ∧
       ∀ env, (loadFontSettle env name url false
          ⟨s.loadedFonts, (name, s.nextId) :: s.loadingPromises, s.links ++ [url],
           s.nextId + 1⟩).1 = env url)) := by
  refine ⟨?_, ?_, ?_⟩
  · intro h
    simp [loadFontStart, h]
  · intro pid hnl hp
    simp [loadFontStart, hnl, hp]
  · intro url hnl hp hcfg hlink
    have hmem : url ∉ s.links := by simpa using hlink
    refine ⟨?_, ?_, ?_⟩
    · simp [loadFontStart, hnl, hp, hcfg, hlink, hmem]
    · simp [loadFontStart, hnl, List.lookup]
    · intro env
      cases henv : env url <;> simp [loadFontSettle, henv]

/-- Witness for C7: a fresh `Amiri` load from an empty loader state, and
an immediate hit on an already-loaded `Roboto`. -/
theorem loadFont_collapses_concurrent_loads_w :
    (("Roboto" : String) ∈ ["Roboto"] ∧
      loadFontStart "Roboto" ⟨["Roboto"], [], [], 0⟩ =
        (FontStart.alreadyLoaded, ⟨["Roboto"], [], [], 0⟩)) ∧
    (webFontTable.lookup "Amiri" =
        some "https://fonts.googleapis.com/css2?family=Amiri:wght@400;700&display=swap" ∧
      loadFontStart "Amiri" ⟨[], [], [], 0⟩ =
        (FontStart.started 0 "https://fonts.googleapis.com/css2?family=Amiri:wght@400;700&display=swap" false,
         ⟨[], [("Amiri", 0)],
          ["https://fonts.googleapis.com/css2?family=Amiri:wght@400;700&display=swap"], 1⟩) ∧
      loadFontStart "Amiri"
          ⟨[], [("Amiri", 0)],
           ["https://fonts.googleapis.com/css2?family=Amiri:wght@400;700&display=swap"], 1⟩ =
        (FontStart.joined 0,
         ⟨[], [("Amiri", 0)],
          ["https://fonts.googleapis.com/css2?family=Amiri:wght@400;700&display=swap"], 1⟩)) := by
  refine ⟨⟨by decide, ?_⟩, ⟨rfl, ?_, ?_⟩⟩
  · exact (loadFont_collapses_concurrent_loads "Roboto" ⟨["Roboto"], [], [], 0⟩).1 (by decide)
  · exact ((loadFont_collapses_concurrent_loads "Amiri" ⟨[], [], [], 0⟩).2.2
      "https://fonts.googleapis.com/css2?family=Amiri:wght@400;700&display=swap"
      (by decide) rfl rfl rfl).1
  · exact ((loadFont_collapses_concurrent_loads "Amiri" ⟨[], [], [], 0⟩).2.2
      "https://fonts.googleapis.com/css2?family=Amiri:wght@400;700&display=swap"
      (by decide) rfl rfl rfl).2.1

/-- Claim C6: a `changeLanguage` call issued while `isChanging` returns
`false` immediately and leaves the whole state — including the change in
progress — untouched. -/
theorem changeLanguage_rejected_while_changing (throws : SwStep → Bool) (newLocale : String)
    (s : SwitcherState) (h : s.isChanging = true) :
    changeLanguage throws newLocale s = (false, s) := by
  simp [changeLanguage, h]

/-- Witness for C6: a second call against a switcher in the loading
state is rejected with no state change. -/
theorem changeLanguage_rejected_while_changing_w :
    (setLoading true c5StartState).isChanging = true ∧
    changeLanguage (fun _ => false) "en" (setLoading true c5StartState) =
      (false, setLoading true c5StartState) := by
  refine ⟨rfl, ?_⟩
  exact changeLanguage_rejected_while_changing (fun _ => false) "en"
    (setLoading true c5StartState) rfl

/-- No step of `changeLanguage` dispatches a `languagechanged` event. -/
theorem applyStep_events (newLocale : String) (st : SwStep) (s : SwitcherState) :
    (applyStep newLocale st s).events = s.events := by
  cases st <;>
    simp only [applyStep, updateSelectValue] <;>
    first
      | rfl
      | (split_ifs <;> rfl)

/-- Running steps dispatches no `languagechanged` event. -/
theorem runSwSteps_events (throws : SwStep → Bool) (newLocale : String) :
    ∀ l s, (runSwSteps throws newLocale l s).2.events = s.events := by
  intro l
  induction l with
  | nil => intro s; rfl
  | cons st rest ih =>
    intro s
    by_cases h : throws st
    · simp [runSwSteps, h]
    · simp [runSwSteps, h, ih, applyStep_events]

/-- With no throwing step the step sequence reports success. -/
theorem runSwSteps_ok (throws : SwStep → Bool) (newLocale : String)
    (hok : ∀ st, throws st = false) :
    ∀ l s, (runSwSteps throws newLocale l s).1 = true := by
  intro l
  induction l with
  | nil => intro s; rfl
  | cons st rest ih =>
    intro s
    simp [runSwSteps, hok st, ih]

/-- `setLoading` does not dispatch events. -/
theorem setLoading_events (b : Bool) (s : SwitcherState) :
    (setLoading b s).events = s.events := by
  cases b <;> simp [setLoading]

/-- Claim C10: every successful `changeLanguage(newLocale)` dispatches a
`languagechanged` event whose `detail.previousLocale` equals `newLocale`
itself (the same value as `detail.locale`), because `this.currentLocale`
is overwritten with `newLocale` before the detail object is built. -/
theorem changeLanguage_event_previous_is_new (throws : SwStep → Bool) (newLocale : String)
    (s : SwitcherState) (hnc : s.isChanging = false) (hne : s.currentLocale ≠ newLocale)
    (hok : ∀ st, throws st = false) :
    (changeLanguage throws newLocale s).1 = true ∧
    (changeLanguage throws newLocale s).2.events =
      s.events ++ [⟨newLocale, newLocale⟩] := by
  have h1 := runSwSteps_ok throws newLocale hok swStepOrder (setLoading true s)
  have h2 := runSwSteps_events throws newLocale swStepOrder (setLoading true s)
  constructor <;> simp [changeLanguage, hnc, hne, h1, h2, setLoading_events]

/-- Witness for C10: changing `pt-BR → ar` with no failing step emits
`detail.previousLocale = "ar" = detail.locale`. -/
theorem changeLanguage_event_previous_is_new_w :
    c5StartState.isChanging = false ∧ c5StartState.currentLocale ≠ "ar" ∧
    (changeLanguage (fun _ => false) "ar" c5StartState).1 = true ∧
    (changeLanguage (fun _ => false) "ar" c5StartState).2.events =
      [⟨"ar", "ar"⟩] := by
  refine ⟨rfl, by decide, ?_⟩
  have h := changeLanguage_event_previous_is_new (fun _ => false) "ar" c5StartState rfl
    (by decide) (fun _ => rfl)
  simpa [c5StartState] using h

/-- Claim C5 evaluated at the failing input: changing `pt-BR → en` with
the i18n step throwing returns `false`, announces the generic error,
clears the loading state, keeps the completed side effects — but the
select ends at the NEW locale `en`, not reverted to `pt-BR`: the
`localechanged` listener already overwrote `currentLocale` during
step 1, so the catch block's `updateSelectValue(this.currentLocale)`
restores nothing. -/
theorem changeLanguage_failure_keeps_new_locale_in_select :
    changeLanguage c5Throws "en" c5StartState =
      (false,
       ⟨"en", false, "en", false, false, some swErrorMessage, [],
        [(SwStep.setLocaleStep, "en"), (SwStep.fontsStep, "en")]⟩) ∧
    ("en" : String) ≠ "pt-BR" ∧
    (changeLanguage c5Throws "en" c5StartState).2.selectValue ≠ c5StartState.currentLocale := by
  exact ⟨by decide, by decide, by decide⟩

end CabraDaTech

namespace CabraDaTech

end CabraDaTech

namespace CabraDaTech

end CabraDaTech

namespace CabraDaTech

end CabraDaTech

namespace CabraDaTech

end CabraDaTech

namespace CabraDaTech

end CabraDaTech

namespace CabraDaTech

end CabraDaTech

namespace CabraDaTech

/-- A `forEach` traversal that returns a list relates input and output
elementwise: each output element is the callback's result on the
corresponding input element. -/
theorem mapExcept_forall2 (f : Elem → Except Unit Elem) :
    ∀ (l l2 : List Elem), mapExcept f l = Except.ok l2 →
      List.Forall₂ (fun e e2 => f e = Except.ok e2) l l2
  | [], l2, h => by
    simp only [mapExcept] at h
    injection h with h
    subst h
    exact List.Forall₂.nil
  | e :: rest, l2, h => by
    simp only [mapExcept] at h
    cases hf : f e with
    | error u => rw [hf] at h; exact Except.noConfusion h
    | ok e1 =>
      rw [hf] at h
      cases hr : mapExcept f rest with
      | error u => rw [hr] at h; exact Except.noConfusion h
      | ok rest1 =>
        rw [hr] at h
        injection h with h
        subst h
        exact List.Forall₂.cons hf (mapExcept_forall2 f rest rest1 hr)

/-- Replacing the first direct text node leaves the child element nodes
untouched. -/
theorem replaceFirstTextNode_filter (s : String) :
    ∀ l : List ChildNode,
      (replaceFirstTextNode s l).filter ChildNode.isElem =
        l.filter ChildNode.isElem
  | [] => rfl
  | ChildNode.text t0 :: rest => by
    simp [replaceFirstTextNode, List.filter_cons, ChildNode.isElem]
  | ChildNode.elem n :: rest => by
    simp [replaceFirstTextNode, List.filter_cons, ChildNode.isElem,
      replaceFirstTextNode_filter s rest]

/-- `textContent` assignment leaves no child element nodes. -/
theorem setTextContent_filter (s : String) :
    (setTextContent s).filter ChildNode.isElem = [] := by
  unfold setTextContent
  split
  · rfl
  · rfl

/-- The three attribute passes compute, on an arbitrary element. -/
theorem attrPasses_eq (st : I18nState) (tg : String) (di : Option String)
    (dp : Option (List (String × String))) (dpl dti dar : Option String)
    (pl ti : String) (ar : Option String) (al : String) (cn : List ChildNode) :
    applyAriaPass st (applyTitlePass st (applyPlaceholderPass st
        ⟨tg, di, dp, dpl, dti, dar, pl, ti, ar, al, cn⟩)) =
      ⟨tg, di, dp, dpl, dti, dar,
        (match dpl with | some k => tString st k | none => pl),
        (match dti with | some k => tString st k | none => ti),
        (match dar with | some k => some (tString st k) | none => ar),
        al, cn⟩ := by
  cases dpl <;> cases dti <;> cases dar <;> rfl

/-- Each element of the `[data-i18n]` pass, composed with the three
attribute passes, satisfies the per-element contract. -/
theorem elemTranslated_of_applyDataI18n (st : I18nState) (e e2 : Elem)
    (h : applyDataI18n st e = Except.ok e2) :
    elemTranslated st e
      (applyAriaPass st (applyTitlePass st (applyPlaceholderPass st e2))) := by
  obtain ⟨tg, di, dp, dpl, dti, dar, pl, ti, ar, al, cn⟩ := e
  cases di with
  | none =>
    simp only [applyDataI18n] at h
    injection h with h
    subst h
    rw [attrPasses_eq]
    refine ⟨?_, ?_, ?_, ?_, ?_, ?_, ?_⟩ <;> intros <;> simp_all
  | some key =>
    simp only [applyDataI18n] at h
    by_cases hk : key = ""
    · rw [if_pos hk] at h
      injection h with h
      subst h
      rw [attrPasses_eq]
      refine ⟨?_, ?_, ?_, ?_, ?_, ?_, ?_⟩ <;> intros <;> simp_all
    · rw [if_neg hk] at h
      cases ht : I18n.t st key (dp.getD []) none with
      | error u => rw [ht] at h; exact Except.noConfusion h
      | ok tr =>
        rw [ht] at h
        dsimp only at h
        by_cases hin : tg = "INPUT" ∨ tg = "TEXTAREA"
        · rw [if_pos hin] at h
          cases dpl with
          | none =>
            cases dar with
            | none =>
              simp only [applyPlaceholderInline, applyAriaInline] at h
              injection h with h
              subst h
              rw [attrPasses_eq]
              refine ⟨?_, ?_, ?_, ?_, ?_, ?_, ?_⟩ <;> intros <;> simp_all
            | some k2 =>
              by_cases h2 : k2 = "" <;>
                simp only [applyPlaceholderInline, applyAriaInline, h2,
                  if_pos, if_neg, ite_true, ite_false] at h <;>
                (injection h with h; subst h; rw [attrPasses_eq];
                 refine ⟨?_, ?_, ?_, ?_, ?_, ?_, ?_⟩ <;> intros <;> simp_all)
          | some k1 =>
            by_cases h1 : k1 = "" <;>
              cases dar with
              | none =>
                simp only [applyPlaceholderInline, applyAriaInline, h1,
                  if_pos, if_neg, ite_true, ite_false] at h
                injection h with h
                subst h
                rw [attrPasses_eq]
                refine ⟨?_, ?_, ?_, ?_, ?_, ?_, ?_⟩ <;> intros <;> simp_all
              | some k2 =>
                by_cases h2 : k2 = "" <;>
                  simp only [applyPlaceholderInline, applyAriaInline, h1, h2,
                    if_pos, if_neg, ite_true, ite_false] at h <;>
                  (injection h with h; subst h; rw [attrPasses_eq];
                   refine ⟨?_, ?_, ?_, ?_, ?_, ?_, ?_⟩ <;> intros <;> simp_all)
        · rw [if_neg hin] at h
          by_cases himg : tg = "IMG"
          · rw [if_pos himg] at h
            injection h with h
            subst h
            rw [attrPasses_eq]
            refine ⟨?_, ?_, ?_, ?_, ?_, ?_, ?_⟩ <;> intros <;> simp_all
          · rw [if_neg himg] at h
            by_cases hcn : cn.filter ChildNode.isElem = []
            · rw [if_pos hcn] at h
              injection h with h
              subst h
              rw [attrPasses_eq]
              refine ⟨?_, ?_, ?_, ?_, ?_, ?_, ?_⟩ <;> intros <;>
                simp_all [setTextContent_filter]
            · rw [if_neg hcn] at h
              injection h with h
              subst h
              rw [attrPasses_eq]
              refine ⟨?_, ?_, ?_, ?_, ?_, ?_, ?_⟩ <;> intros <;>
                simp_all [replaceFirstTextNode_filter]

/-- Claim C9: when `translatePage` completes, every element carrying a
marking attribute has the corresponding target rewritten to its
translation — `placeholder` for `data-i18n-placeholder`, `title` for
`data-i18n-title`, `aria-label` for `data-i18n-aria`, `alt` for an `IMG`
with `data-i18n`, and the text content otherwise: a marked element with
no child element nodes has its whole text content set to the
translation, while a marked element with child element nodes has exactly
its first direct text node replaced, with all child element nodes left
intact (element children are preserved unconditionally). -/
theorem translatePage_rewrites_marked (st : I18nState) (doc d : List Elem)
    (h : translatePage st doc = Except.ok d) :
    List.Forall₂ (elemTranslated st) doc d := by
  unfold translatePage at h
  cases hm : mapExcept (applyDataI18n st) doc with
  | error u => rw [hm] at h; exact Except.noConfusion h
  | ok d1 =>
    rw [hm] at h
    injection h with h
    subst h
    rw [List.map_map, List.map_map, List.forall₂_map_right_iff]
    refine (mapExcept_forall2 (applyDataI18n st) doc d1 hm).imp ?_
    intro e e2 hee
    simpa [Function.comp] using elemTranslated_of_applyDataI18n st e e2 hee

/-- Witness for C9 at a concrete page: the five-element document
translates successfully and satisfies the per-element contract. -/
theorem translatePage_rewrites_marked_w :
    translatePage c9State c9Doc = Except.ok c9Out ∧
      List.Forall₂ (elemTranslated c9State) c9Doc c9Out :=
  ⟨rfl, translatePage_rewrites_marked c9State c9Doc c9Out rfl⟩

end CabraDaTech
